import Mathlib

set_option maxHeartbeats 1000000

/-!
Shallow embedding of the lyceris Minecraft-installer core, written from the
Rust sources: `src/minecraft/parse.rs`, `src/minecraft/install.rs`,
`src/minecraft/loader/{fabric,quilt,neoforge}.rs`, `src/http/downloader.rs`
and `src/util/hash.rs`.  Paths are modelled as strings, filesystem state and
external effects as explicit oracle parameters.
-/

namespace Lyceris

/-- Embeds the crate's error enum.  `src/error.rs` is not in the tree; the
variants are exactly those constructed by the sources that are
(`Error::Download`, `Error::NotFound`, `Error::UnknownVersion`,
`Error::UnsupportedArchitecture`, `Error::Parse`, `Error::Fail`),
matching the taxonomy of the spec. -/
inductive Error where
  | Download (msg : String)
  | NotFound (msg : String)
  | UnknownVersion (msg : String)
  | UnsupportedArchitecture
  | Parse (msg : String)
  | Fail (msg : String)
deriving DecidableEq, Repr

/-- Character-wise splitting, the model of Rust's `str::split(char)`:
`"".split(c)` yields one empty segment, adjacent separators yield empty
segments.  Defined structurally so the kernel can evaluate it. -/
def splitOnChar (c : Char) : List Char → List (List Char)
  | [] => [[]]
  | ch :: rest =>
    let r := splitOnChar c rest
    if ch = c then [] :: r
    else
      match r with
      | [] => [[ch]]
      | g :: gs => (ch :: g) :: gs

/-- String front-end of `splitOnChar`. -/
def splitChar (c : Char) (s : String) : List String :=
  (splitOnChar c s.data).map String.mk

/-- Models Rust's `str::replace('.', "/")` on the package segment. -/
def dotsToSlashes (s : String) : String :=
  String.mk (s.data.map fun ch => if ch = '.' then '/' else ch)

/-- Embeds `parse_lib_path` (src/minecraft/parse.rs:135-173): converts a
Maven-style coordinate `group:artifact:version[:classifier][@ext]` into a
relative path, failing with `Error.Parse` when fewer than 3 colon-separated
segments are present. -/
def parse_lib_path (artifact : String) : Except Error String :=
  let name_items := splitChar ':' artifact
  if name_items.length < 3 then
    Except.error (Error.Parse ("Invalid artifact format: " ++ artifact))
  else
    let package := name_items.getD 0 ""
    let name := name_items.getD 1 ""
    let version_ext := splitChar '@' (name_items.getD 2 "")
    let version := version_ext.getD 0 ""
    let ext := version_ext.getD 1 "jar"
    if name_items.length = 3 then
      Except.ok (dotsToSlashes package ++ "/" ++ name ++ "/" ++ version ++ "/"
        ++ name ++ "-" ++ version ++ "." ++ ext)
    else
      let data_ext := splitChar '@' (name_items.getD 3 "")
      let data := data_ext.getD 0 ""
      let dataExt := data_ext.getD 1 "jar"
      Except.ok (dotsToSlashes package ++ "/" ++ name ++ "/" ++ version ++ "/"
        ++ name ++ "-" ++ version ++ "-" ++ data ++ "." ++ dataExt)

/-! ## Loader merge engine (library deduplication) -/

/-- Embeds `vanilla::File` as built by the merge paths
(path, sha1, size, url). -/
structure VFile where
  path : Option String
  sha1 : String
  size : Int
  url : String
deriving DecidableEq, Repr

/-- Embeds `vanilla::LibraryDownloads`.  The merge code always writes
`classifiers: None`; the classifier table itself is not consulted by any
merge, so presence is all that is modelled. -/
structure LibraryDownloads where
  artifact : Option VFile
  classifiers : Option Unit
deriving DecidableEq, Repr

/-- Embeds `vanilla::Library` as the merge code reads and writes it.  The
`rules`, `natives` and `extract` fields are install-rule data never touched
by the library-merge logic and are left out of the model. -/
structure VLibrary where
  downloads : Option LibraryDownloads
  name : String
  skip_args : Bool
deriving DecidableEq, Repr

/-- Embeds `custom::Library` (src/json/version/meta/custom.rs:30-52), the
loader-profile library entry.  The md5/sha256/sha512 digests are never read
by the merges and are not modelled. -/
structure CLibrary where
  name : String
  url : Option String
  sha1 : Option String
  size : Option Int
  downloads : Option LibraryDownloads
deriving DecidableEq, Repr

/-- Models `name.split(':').nth(1)`: the artifact-name segment of a Maven
coordinate, `none` when the string holds no colon.  This is the key every
loader merge dedups on. -/
def artifactSegment (s : String) : Option String :=
  (splitChar ':' s).get? 1

/-- Models `name.split(':').nth(0)`: the package (group) segment. -/
def packageSegment (s : String) : Option String :=
  (splitChar ':' s).get? 0

/-- Embeds the profile-library conversion inside `Fabric::merge`
(src/minecraft/loader/fabric.rs:112-136): a profile library is kept only if
its coordinate parses and it carries a maven base `url`; the download URL is
the base joined with the parsed path. -/
def fabricConvertLib (lib : CLibrary) : Option VLibrary :=
  match parse_lib_path lib.name with
  | Except.error _ => none
  | Except.ok path =>
    lib.url.map fun url =>
      { downloads := some
          { artifact := some
              { path := some path
                sha1 := lib.sha1.getD ""
                size := lib.size.getD 0
                url := url ++ "/" ++ path }
            classifiers := none }
        name := lib.name
        skip_args := false }

/-- Embeds the library-merge step of `Fabric::merge`
(src/minecraft/loader/fabric.rs:104-136): `retain` drops every vanilla
library whose artifact-name segment equals that of some profile library,
then the convertible profile libraries are appended. -/
def fabricMergeLibraries (vanillaLibs : List VLibrary) (profileLibs : List CLibrary) :
    List VLibrary :=
  vanillaLibs.filter (fun lib =>
    profileLibs.all fun vLib => artifactSegment vLib.name != artifactSegment lib.name)
  ++ profileLibs.filterMap fabricConvertLib

/-- Embeds the library-merge step of `Quilt::merge`
(src/minecraft/loader/quilt.rs:107-139); the source duplicates the Fabric
code verbatim against the Quilt endpoints. -/
def quiltMergeLibraries (vanillaLibs : List VLibrary) (profileLibs : List CLibrary) :
    List VLibrary :=
  vanillaLibs.filter (fun lib =>
    profileLibs.all fun vLib => artifactSegment vLib.name != artifactSegment lib.name)
  ++ profileLibs.filterMap fabricConvertLib

/-- Embeds the per-library conversion inside `merge_libraries`
(src/minecraft/loader/neoforge.rs:287-342): a library converts from an
explicit maven base `url` plus a parsable coordinate, or else from an
embedded artifact descriptor carrying a path; otherwise it is dropped.
`librariesPath` is `config.get_libraries_path()` and `PathBuf::join` is
concatenation with a slash. -/
def neoConvertLib (librariesPath : String) (skipArgsFlag : Bool) (lib : CLibrary) :
    Option VLibrary :=
  match lib.url with
  | some url =>
    match parse_lib_path lib.name with
    | Except.error _ => none
    | Except.ok path =>
      some
        { downloads := some
            { artifact := some
                { path := some (librariesPath ++ "/" ++ path)
                  sha1 := lib.sha1.getD ""
                  size := lib.size.getD 0
                  url := url ++ "/" ++ path }
              classifiers := none }
          name := lib.name
          skip_args := skipArgsFlag }
  | none =>
    match lib.downloads with
    | some downloads =>
      match downloads.artifact with
      | some artifact =>
        match artifact.path with
        | some path =>
          some
            { downloads := some
                { artifact := some
                    { path := some (librariesPath ++ "/" ++ path)
                      sha1 := lib.sha1.getD ""
                      size := lib.size.getD 0
                      url := artifact.url }
                  classifiers := none }
              name := lib.name
              skip_args := skipArgsFlag }
        | none => none
      | none => none
    | none => none

/-- Embeds the `filter_map` loop of `merge_libraries`
(src/minecraft/loader/neoforge.rs:280-344).  The `seen` HashSet of full
coordinate names is a list accumulator; a name is inserted before conversion
is attempted, so even an inconvertible library blocks later duplicates. -/
def neoMergeLibrariesAux (librariesPath : String) (skipArgsFlag : Bool) :
    List CLibrary → List String → List VLibrary × List String
  | [], seen => ([], seen)
  | lib :: rest, seen =>
    if lib.name ∈ seen then
      neoMergeLibrariesAux librariesPath skipArgsFlag rest seen
    else
      let out := neoMergeLibrariesAux librariesPath skipArgsFlag rest (lib.name :: seen)
      match neoConvertLib librariesPath skipArgsFlag lib with
      | some r => (r :: out.1, out.2)
      | none => out

/-- Loader-origin libraries a NeoForge merge appends: version-JSON libraries
first (argument-contributing), installer libraries second
(argument-suppressing), sharing one seen-set
(src/minecraft/loader/neoforge.rs:129-138). -/
def neoConvertedLibraries (librariesPath : String)
    (versionLibs installerLibs : List CLibrary) : List VLibrary :=
  let fromVersion := neoMergeLibrariesAux librariesPath false versionLibs []
  let fromInstaller := neoMergeLibrariesAux librariesPath true installerLibs fromVersion.2
  fromVersion.1 ++ fromInstaller.1

/-- Embeds the library-merge step of `NeoForge::merge`
(src/minecraft/loader/neoforge.rs:122-138): `retain` drops vanilla libraries
clashing on artifact-name with the version-JSON libraries only, then both
converted lists are appended. -/
def neoforgeMergeLibraries (librariesPath : String) (vanillaLibs : List VLibrary)
    (versionLibs installerLibs : List CLibrary) : List VLibrary :=
  vanillaLibs.filter (fun lib =>
    versionLibs.all fun vLib => artifactSegment vLib.name != artifactSegment lib.name)
  ++ neoConvertedLibraries librariesPath versionLibs installerLibs

/-- Pairwise distinctness of artifact-name segments of vanilla libraries:
the uniqueness notion claim C1 is about. -/
def distinctSegsV (l : List VLibrary) : Prop :=
  List.Pairwise (fun a b => artifactSegment a.name ≠ artifactSegment b.name) l

/-- Pairwise distinctness of artifact-name segments of profile libraries. -/
def distinctSegsC (l : List CLibrary) : Prop :=
  List.Pairwise (fun a b => artifactSegment a.name ≠ artifactSegment b.name) l

/-- Concrete profile entry `g:x:1` used by the C1 counterexample. -/
def cexProfileLib1 : CLibrary :=
  { name := "g:x:1", url := some "u", sha1 := none, size := none, downloads := none }

/-- Concrete profile entry `g:x:2` used by the C1 counterexample. -/
def cexProfileLib2 : CLibrary :=
  { name := "g:x:2", url := some "u", sha1 := none, size := none, downloads := none }

/-- Image of `cexProfileLib1` under the Fabric conversion, used by the C1
witness. -/
def cexConvertedLib : VLibrary :=
  { downloads := some
      { artifact := some
          { path := some "g/x/1/x-1.jar", sha1 := "", size := 0, url := "u/g/x/1/x-1.jar" }
        classifiers := none }
    name := "g:x:1"
    skip_args := false }

/-! ## File reconciliation -/

/-- Embeds `FileType` (src/minecraft/install.rs:45-50). -/
inductive FileType where
  | Asset (is_virtual : Bool) (is_map : Bool)
  | Library
  | Java
  | Custom
deriving DecidableEq, Repr

/-- Embeds `DownloadFile` (src/minecraft/install.rs:66-73). -/
structure DownloadFile where
  file_name : String
  sha1 : String
  url : String
  path : String
  type : FileType
deriving DecidableEq, Repr

/-- Abstract disk state for reconciliation: whether a path exists, and the
result of `calculate_sha1` (src/util/hash.rs:11-18) on it — `none` models a
failed digest computation (unreadable file). -/
structure DiskState where
  pathExists : String → Bool
  calculate_sha1 : String → Option String

/-- Embeds the broken-file classification inside `download_necessary`
(src/minecraft/install.rs:532-545): a file with an empty URL is skipped
outright; otherwise it is broken when absent, or when its expected digest is
non-empty and `calculate_sha1` yields a digest different from it (the
`.ok()?` makes a failed digest computation classify the file as not
broken). -/
def is_broken (disk : DiskState) (file : DownloadFile) : Bool :=
  !file.url.isEmpty &&
    (!(disk.pathExists file.path) ||
      (!file.sha1.isEmpty &&
        match disk.calculate_sha1 file.path with
        | some digest => digest != file.sha1
        | none => false))

/-- Embeds the `broken_ones` collection of `download_necessary`
(src/minecraft/install.rs:532-545): the (url, path, type) triples of the
broken files, in input order. -/
def broken_ones (disk : DiskState) (files : List DownloadFile) :
    List (String × String × FileType) :=
  files.filterMap fun file =>
    if is_broken disk file then some (file.url, file.path, file.type) else none

/-- Concrete descriptor with an empty source URL, used by the C2
counterexample. -/
def cexEmptyUrlFile : DownloadFile :=
  { file_name := "f", sha1 := "abc", url := "", path := "p", type := FileType.Library }

/-- Concrete empty disk (no file present), used by the C2 counterexample. -/
def cexAbsentDisk : DiskState :=
  { pathExists := fun _ => false, calculate_sha1 := fun _ => none }

/-- Concrete descriptor with a non-empty URL, used by the C2 witness. -/
def cexUrlFile : DownloadFile :=
  { file_name := "f", sha1 := "abc", url := "http://u", path := "p", type := FileType.Library }

/-! ## Processor runner -/

/-- Embeds `custom::Processor` (src/json/version/meta/custom.rs:75-83); the
`outputs` map is never read by the runner and is not modelled. -/
structure Processor where
  classpath : List String
  args : List String
  sides : Option (List String)
  jar : String
  success : Bool
deriving DecidableEq, Repr

/-- Outcome of invoking a processor step's external program
(`Command::output`, src/minecraft/install.rs:474-498): exit status together
with the captured standard-error. -/
inductive StepOutcome where
  | exitSuccess
  | exitFailure (stderr : String)
deriving DecidableEq, Repr

/-- Effect oracles for one processor run, indexed by step position:
`mainClass i` is the result of resolving the step's jar path and reading the
`Main-Class:` line of its manifest (src/minecraft/install.rs:426-440), and
`exec i` the exit of the external program invocation. -/
structure ProcEnv where
  mainClass : Nat → Except Error String
  exec : Nat → StepOutcome

/-- Models the side check (src/minecraft/install.rs:402-406): the step is
skipped when a sides list is present that does not contain "client". -/
def sideSkip (p : Processor) : Bool :=
  match p.sides with
  | some sides => !(sides.contains "client")
  | none => false

/-- Embeds the step loop of `execute_processors_if_exists`
(src/minecraft/install.rs:401-506): returns the step list as mutated in
memory, the positions whose external program was invoked (in order), and the
error that aborted the loop, if any.  Classpath resolution (lines 412-424)
drops unparsable entries and cannot fail; argument resolution (lines
442-472) is modelled separately by `resolveArg` and its panic behaviour is
its own claim. -/
def runSteps (env : ProcEnv) : Nat → List Processor → List Processor × List Nat × Option Error
  | _, [] => ([], [], none)
  | i, p :: rest =>
    if sideSkip p then
      let out := runSteps env (i + 1) rest
      (p :: out.1, out.2.1, out.2.2)
    else if p.success then
      let out := runSteps env (i + 1) rest
      (p :: out.1, out.2.1, out.2.2)
    else
      match env.mainClass i with
      | Except.error e => (p :: rest, [], some e)
      | Except.ok _ =>
        match env.exec i with
        | StepOutcome.exitSuccess =>
          let out := runSteps env (i + 1) rest
          ({ p with success := true } :: out.1, i :: out.2.1, out.2.2)
        | StepOutcome.exitFailure stderr =>
          (p :: rest, [i], some (Error.Fail ("Processor failed: " ++ stderr)))

/-- Embeds `VersionMeta` as `execute_processors_if_exists` touches it: the
optional processor list and whether the installer data map is present. -/
structure MetaProcessors where
  processors : Option (List Processor)
  hasData : Bool
deriving DecidableEq, Repr

/-- Embeds `execute_processors_if_exists` (src/minecraft/install.rs:389-512).
Returns the call's result, the descriptor `write_json` persisted — `none`
when the function returned with an error before reaching the write at line
509 — and the positions of the steps whose external program was invoked. -/
def execute_processors_if_exists (env : ProcEnv) (meta : MetaProcessors) :
    Except Error MetaProcessors × Option MetaProcessors × List Nat :=
  match meta.processors with
  | none => (Except.ok meta, some meta, [])
  | some procs =>
    if meta.hasData then
      let out := runSteps env 0 procs
      let newMeta : MetaProcessors := { meta with processors := some out.1 }
      match out.2.2 with
      | some e => (Except.error e, none, out.2.1)
      | none => (Except.ok newMeta, some newMeta, out.2.1)
    else (Except.error (Error.NotFound "Forge Installer Data"), none, [])

/-- Concrete processor step used by the C3/C4 scenarios. -/
def cexStep : Processor :=
  { classpath := [], args := [], sides := none, jar := "g:j:1", success := false }

/-- Concrete environment for the C3 counterexample: step 0 exits zero, step 1
exits non-zero with stderr `boom`. -/
def cexProcEnv : ProcEnv :=
  { mainClass := fun _ => Except.ok "Main"
    exec := fun i => if i == 0 then StepOutcome.exitSuccess else StepOutcome.exitFailure "boom" }

/-- Concrete two-step descriptor for the C3 counterexample. -/
def cexMeta : MetaProcessors :=
  { processors := some [cexStep, cexStep], hasData := true }

/-- Concrete environment for the C4 counterexample: step 0 exits zero, step 1
exits non-zero with stderr `late-fail`. -/
def cexProcEnv2 : ProcEnv :=
  { mainClass := fun _ => Except.ok "Main"
    exec := fun i =>
      if i == 0 then StepOutcome.exitSuccess else StepOutcome.exitFailure "late-fail" }

/-- Concrete environment for the C3/C4 witnesses: every step fails with
stderr `werr`. -/
def cexProcEnvW : ProcEnv :=
  { mainClass := fun _ => Except.ok "Main"
    exec := fun _ => StepOutcome.exitFailure "werr" }

/-! ## Download engine -/

/-- One item of a streamed response body: `gapSecs` seconds elapse before the
item arrives; the item is a chunk of `len` bytes (`some len`) or a stream
error (`none`), mirroring the `Ok`/`Err` arms at
src/http/downloader.rs:85-112. -/
structure ChunkEvent where
  gapSecs : Nat
  chunk : Option Nat
deriving DecidableEq, Repr

/-- Abstract HTTP response consumed by `download`
(src/http/downloader.rs:56-80): status flag, status text, the optional
Content-Length header, and the body stream. -/
structure HttpResponse where
  statusSuccess : Bool
  statusText : String
  contentLength : Option Nat
  events : List ChunkEvent
deriving DecidableEq, Repr

/-- Embeds the streaming loop of `download` (src/http/downloader.rs:84-120).
Per item, `timeout(10s, stream.next())` elapses when the gap before the item
exceeds the 10-second window; `src/error.rs` being absent from the tree, the
conversion of the elapsed timeout into a `Download` (stalled-connection)
error is modelled from the spec.  A stream error maps to the in-loop
`Download` error (line 108); a chunk adds its length to the bytes written.
Returns the loop's result together with the bytes written; at end of stream
the code returns `total_size` (line 122). -/
def downloadLoop (contentLength : Option Nat) :
    List ChunkEvent → Nat → Except Error Nat × Nat
  | [], written => (Except.ok (contentLength.getD 0), written)
  | ev :: rest, written =>
    if 10 < ev.gapSecs then
      (Except.error (Error.Download "Connection stalled: timeout elapsed"), written)
    else
      match ev.chunk with
      | some len => downloadLoop contentLength rest (written + len)
      | none =>
        (Except.error (Error.Download "Connection dead, no data for 3 seconds."), written)

/-- Embeds `download` (src/http/downloader.rs:51-123): a non-success status
fails with `Download` carrying the status text (lines 62-64); otherwise the
body is streamed and, at end of stream, the function returns `total_size` —
the Content-Length header value, 0 when the header is absent (line 67) — not
the number of bytes written. -/
def download (resp : HttpResponse) : Except Error Nat × Nat :=
  if resp.statusSuccess then
    downloadLoop resp.contentLength resp.events 0
  else
    (Except.error (Error.Download resp.statusText), 0)

/-- Concrete response without a Content-Length header whose body carries one
5-byte chunk, used by the C8 counterexample. -/
def cexNoLengthResp : HttpResponse :=
  { statusSuccess := true, statusText := "200 OK", contentLength := none
    events := [{ gapSecs := 0, chunk := some 5 }] }

/-- Concrete non-success response, used by the C8 witness. -/
def cexFailResp : HttpResponse :=
  { statusSuccess := false, statusText := "404 Not Found", contentLength := none
    events := [] }

/-- Concrete response whose first body item arrives after an 11-second gap,
used by the C6 witness. -/
def cexStallResp : HttpResponse :=
  { statusSuccess := true, statusText := "200 OK", contentLength := some 100
    events := [{ gapSecs := 11, chunk := some 3 }] }

/-- Modelled from the spec: `src/util/retry.rs` is absent from the tree; per
the spec each download is "retried up to 3 times with a fixed inter-attempt
delay (5s)".  `retryGo f delaySecs i fuel` walks the per-attempt outcomes
`f` starting at attempt `i` with `fuel` attempts allowed, sleeping
`delaySecs` before each re-attempt; it returns the outcome of the last
attempt made, the total number of attempts, and the list of sleeps
performed. -/
def retryGo (f : Nat → Except Error Nat) (delaySecs : Nat) :
    Nat → Nat → Except Error Nat × Nat × List Nat
  | i, 0 => (f i, i + 1, [])
  | i, 1 => (f i, i + 1, [])
  | i, n + 2 =>
    match f i with
    | Except.ok v => (Except.ok v, i + 1, [])
    | Except.error _ =>
      let out := retryGo f delaySecs (i + 1) (n + 1)
      (out.1, out.2.1, delaySecs :: out.2.2)

/-- Modelled from the spec: the `retry(op, Result::is_ok, 3, 5s)` call of
`download_multiple` (src/http/downloader.rs:154-160), with `maxAttempts`
attempts in total. -/
def retry (f : Nat → Except Error Nat) (maxAttempts delaySecs : Nat) :
    Except Error Nat × Nat × List Nat :=
  retryGo f delaySecs 0 maxAttempts

/-- Embeds the result collection of `download_multiple`
(src/http/downloader.rs:139-199): each entry is wrapped in `retry(…, 3, 5s)`;
the buffered stream yields results in entry order and the `?` at line 196
returns the first error.  The concurrent execution of entry bodies is
abstracted into the per-entry, per-attempt outcome oracle `outcome`. -/
def downloadBatch (outcome : Nat → Nat → Except Error Nat) :
    List Nat → Except Error Unit
  | [] => Except.ok ()
  | i :: rest =>
    match (retry (outcome i) 3 5).1 with
    | Except.ok _ => downloadBatch outcome rest
    | Except.error e => Except.error e

/-- Concrete batch outcomes for the C7 witness: entry 0 succeeds at once,
every other entry fails every attempt. -/
def cexOutcome : Nat → Nat → Except Error Nat :=
  fun i _ => if i == 0 then Except.ok 7 else Except.error (Error.Download "dead")

/-- State of the buffered-stream scheduler of `download_multiple`
(src/http/downloader.rs:192, `stream::iter(tasks).buffered(10)`): counts of
entries not yet admitted, entries in flight, and entries completed. -/
structure BatchState where
  pending : Nat
  inflight : Nat
  done : Nat
deriving DecidableEq, Repr

/-- Models the admission policy of `buffered(10)` as the code configures it:
a pending entry may enter flight only while fewer than 10 are in flight; an
in-flight entry may complete at any time. -/
inductive BatchStep : BatchState → BatchState → Prop
  | spawn (s : BatchState) (hp : 0 < s.pending) (hf : s.inflight < 10) :
      BatchStep s { pending := s.pending - 1, inflight := s.inflight + 1, done := s.done }
  | complete (s : BatchState) (hf : 0 < s.inflight) :
      BatchStep s { pending := s.pending, inflight := s.inflight - 1, done := s.done + 1 }

/-- Initial scheduler state of a batch of `n` queued downloads. -/
def initBatch (n : Nat) : BatchState :=
  { pending := n, inflight := 0, done := 0 }

/-- Reflexive-transitive reachability between scheduler states. -/
inductive BatchReachable : BatchState → BatchState → Prop
  | refl (s : BatchState) : BatchReachable s s
  | step {s t u : BatchState} : BatchReachable s t → BatchStep t u → BatchReachable s u

/-! ## Processor argument resolution -/

/-- Embeds `custom::Data` (src/json/version/meta/custom.rs:86-89): one
DataVariable with client and server values. -/
structure Data where
  client : String
  server : String
deriving DecidableEq, Repr

/-- Models Rust's `str::starts_with(char)` on the first character. -/
def startsWithChar (c : Char) (s : String) : Bool :=
  match s.data with
  | [] => false
  | ch :: _ => ch = c

/-- Embeds the argument-resolution closure of `execute_processors_if_exists`
(src/minecraft/install.rs:442-472).  The slice `&arg[1..arg.len() - 1]` at
line 446 is taken BEFORE any shape check, so for an argument shorter than 2
the slice bounds are invalid and the call panics — modelled as `none`; the
same applies to a data value equal to `[` at line 451.  Lengths are in
characters (the byte-level char-boundary panics of non-ASCII input are
outside the model).  `data` is the merged DataVariable map (`data.get`),
`librariesPath` the libraries directory, `PathBuf::join` concatenation with
a slash. -/
def resolveArg (librariesPath : String) (data : String → Option Data) (arg : String) :
    Option String :=
  if arg.data.length < 2 then none
  else
    let trimmedArg := String.mk (arg.data.drop 1).dropLast
    if startsWithChar '\x7b' arg then
      match data trimmedArg with
      | some entry =>
        if startsWithChar '[' entry.client then
          if entry.client.data.length < 2 then none
          else
            match parse_lib_path (String.mk (entry.client.data.drop 1).dropLast) with
            | Except.ok parsedPath => some (librariesPath ++ "/" ++ parsedPath)
            | Except.error _ => some entry.client
        else some entry.client
      | none => some arg
    else if startsWithChar '[' arg then
      match parse_lib_path trimmedArg with
      | Except.ok parsedPath => some (librariesPath ++ "/" ++ parsedPath)
      | Except.error _ => some arg
    else some arg

/-- C5: the artifact path resolver maps `com.example:lib:1.0` to
`com/example/lib/1.0/lib-1.0.jar`, maps `com.example:lib:1.0:natives` to
`com/example/lib/1.0/lib-1.0-natives.jar`, and fails with a `Parse` error on
every input with fewer than 3 colon-separated segments. -/
theorem parse_lib_path_spec :
    parse_lib_path "com.example:lib:1.0" = Except.ok "com/example/lib/1.0/lib-1.0.jar"
    ∧ parse_lib_path "com.example:lib:1.0:natives"
        = Except.ok "com/example/lib/1.0/lib-1.0-natives.jar"
    ∧ ∀ s : String, (splitChar ':' s).length < 3 →
        parse_lib_path s = Except.error (Error.Parse ("Invalid artifact format: " ++ s)) := by
  refine ⟨by rfl, by rfl, ?_⟩
  intro s h
  unfold parse_lib_path
  simp only [if_pos h]

/-- Witness for `parse_lib_path_spec`: instantiates the parse-failure clause
at the concrete two-segment input `a:b`. -/
theorem parse_lib_path_spec_witness :
    parse_lib_path "a:b" = Except.error (Error.Parse ("Invalid artifact format: " ++ "a:b")) :=
  parse_lib_path_spec.2.2 "a:b" (by decide)

/-- Helper: the Fabric/Quilt profile-library conversion keeps the coordinate
name unchanged. -/
theorem fabricConvertLib_name {lib : CLibrary} {r : VLibrary}
    (h : fabricConvertLib lib = some r) : r.name = lib.name := by
  unfold fabricConvertLib at h
  cases hp : parse_lib_path lib.name with
  | error e => rw [hp] at h; exact absurd h (by simp)
  | ok path =>
    rw [hp] at h
    rcases Option.map_eq_some'.1 h with ⟨u, _, hr⟩
    rw [← hr]

/-- Helper: the NeoForge per-library conversion keeps the coordinate name
unchanged. -/
theorem neoConvertLib_name {lp : String} {flag : Bool} {lib : CLibrary} {r : VLibrary}
    (h : neoConvertLib lp flag lib = some r) : r.name = lib.name := by
  unfold neoConvertLib at h
  repeat' split at h
  all_goals first
    | (cases h; rfl)
    | exact absurd h (by simp)

/-- Helper: every library produced by the NeoForge seen-set loop carries the
name of some input library. -/
theorem neoAux_mem_names (lp : String) (flag : Bool) :
    ∀ (libs : List CLibrary) (seen : List String) (r : VLibrary),
      r ∈ (neoMergeLibrariesAux lp flag libs seen).1 → ∃ q ∈ libs, r.name = q.name := by
  intro libs
  induction libs with
  | nil => intro seen r h; exact absurd h (by simp [neoMergeLibrariesAux])
  | cons lib rest ih =>
    intro seen r h
    by_cases hs : lib.name ∈ seen
    · rw [neoMergeLibrariesAux, if_pos hs] at h
      obtain ⟨q, hq, hname⟩ := ih seen r h
      exact ⟨q, List.mem_cons_of_mem _ hq, hname⟩
    · rw [neoMergeLibrariesAux, if_neg hs] at h
      cases hc : neoConvertLib lp flag lib with
      | some r0 =>
        rw [hc] at h
        rcases List.mem_cons.1 h with h0 | h1
        · exact ⟨lib, List.mem_cons_self _ _, h0 ▸ neoConvertLib_name hc⟩
        · obtain ⟨q, hq, hname⟩ := ih (lib.name :: seen) r h1
          exact ⟨q, List.mem_cons_of_mem _ hq, hname⟩
      | none =>
        rw [hc] at h
        obtain ⟨q, hq, hname⟩ := ih (lib.name :: seen) r h
        exact ⟨q, List.mem_cons_of_mem _ hq, hname⟩

/-- Helper: the NeoForge seen-set loop preserves pairwise distinctness of
artifact-name segments. -/
theorem neoAux_pairwise (lp : String) (flag : Bool) :
    ∀ (libs : List CLibrary) (seen : List String), distinctSegsC libs →
      List.Pairwise (fun a b : VLibrary => artifactSegment a.name ≠ artifactSegment b.name)
        (neoMergeLibrariesAux lp flag libs seen).1 := by
  intro libs
  induction libs with
  | nil => intro seen _; simp [neoMergeLibrariesAux]
  | cons lib rest ih =>
    intro seen hp
    have hhead := (List.pairwise_cons.1 hp).1
    have hrest := (List.pairwise_cons.1 hp).2
    by_cases hs : lib.name ∈ seen
    · rw [neoMergeLibrariesAux, if_pos hs]
      exact ih seen hrest
    · rw [neoMergeLibrariesAux, if_neg hs]
      cases hc : neoConvertLib lp flag lib with
      | some r0 =>
        refine List.pairwise_cons.2 ⟨?_, ih (lib.name :: seen) hrest⟩
        intro b hb
        obtain ⟨q, hq, hname⟩ := neoAux_mem_names lp flag rest (lib.name :: seen) b hb
        rw [neoConvertLib_name hc, hname]
        exact hhead q hq
      | none => exact ih (lib.name :: seen) hrest

/-- C1 counterexample: merging a Fabric profile that carries two entries
`g:x:1` and `g:x:2` — same package `g` and artifact name `x`, different
versions — into an empty vanilla list leaves TWO merged entries with the
(package, name) pair (g, x), refuting "after the merge the library list
contains exactly one entry per (package, name) pair". -/
theorem fabric_merge_dedup_counterexample :
    ((fabricMergeLibraries [] [cexProfileLib1, cexProfileLib2]).countP fun lib =>
      packageSegment lib.name == some "g" && artifactSegment lib.name == some "x") = 2 := by
  rfl

/-- C1 (amended): every loader merge dedups on the artifact-name segment
alone, not the (package, name) pair.  (i)-(iii): a vanilla entry sharing an
artifact name with a profile entry (for NeoForge: a version-JSON profile
entry) survives the merge only as a loader-origin entry — loader precedence.
(iv)-(vi): the merged list has at most one entry per artifact name (hence
per (package, name) pair) provided the vanilla list and the profile lists
already hold pairwise-distinct artifact names and, for NeoForge, the
installer libraries — which never trigger removal — avoid the vanilla
artifact names. -/
theorem loader_merge_dedup :
    (∀ (v : List VLibrary) (p : List CLibrary) (lib : VLibrary), lib ∈ v →
        (∃ q ∈ p, artifactSegment q.name = artifactSegment lib.name) →
        lib ∈ fabricMergeLibraries v p → lib ∈ p.filterMap fabricConvertLib)
    ∧ (∀ (v : List VLibrary) (p : List CLibrary) (lib : VLibrary), lib ∈ v →
        (∃ q ∈ p, artifactSegment q.name = artifactSegment lib.name) →
        lib ∈ quiltMergeLibraries v p → lib ∈ p.filterMap fabricConvertLib)
    ∧ (∀ (lp : String) (v : List VLibrary) (vers inst : List CLibrary) (lib : VLibrary),
        lib ∈ v →
        (∃ q ∈ vers, artifactSegment q.name = artifactSegment lib.name) →
        lib ∈ neoforgeMergeLibraries lp v vers inst →
        lib ∈ neoConvertedLibraries lp vers inst)
    ∧ (∀ (v : List VLibrary) (p : List CLibrary), distinctSegsV v → distinctSegsC p →
        distinctSegsV (fabricMergeLibraries v p))
    ∧ (∀ (v : List VLibrary) (p : List CLibrary), distinctSegsV v → distinctSegsC p →
        distinctSegsV (quiltMergeLibraries v p))
    ∧ (∀ (lp : String) (v : List VLibrary) (vers inst : List CLibrary),
        distinctSegsV v → distinctSegsC (vers ++ inst) →
        (∀ lib ∈ v, ∀ q ∈ inst, artifactSegment q.name ≠ artifactSegment lib.name) →
        distinctSegsV (neoforgeMergeLibraries lp v vers inst)) := by
  have hremove : ∀ (v : List VLibrary) (p : List CLibrary) (lib : VLibrary), lib ∈ v →
      (∃ q ∈ p, artifactSegment q.name = artifactSegment lib.name) →
      lib ∈ (v.filter fun l =>
        p.all fun vLib => artifactSegment vLib.name != artifactSegment l.name) ++
          p.filterMap fabricConvertLib →
      lib ∈ p.filterMap fabricConvertLib := by
    intro v p lib _ hex hmem
    obtain ⟨q, hq, hseg⟩ := hex
    rcases List.mem_append.1 hmem with h | h
    · have hall := (List.mem_filter.1 h).2
      have := List.all_eq_true.1 hall q hq
      rw [bne_iff_ne] at this
      exact absurd hseg this
    · exact h
  have hpair : ∀ (v : List VLibrary) (p : List CLibrary), distinctSegsV v → distinctSegsC p →
      List.Pairwise (fun a b : VLibrary => artifactSegment a.name ≠ artifactSegment b.name)
        ((v.filter fun l =>
          p.all fun vLib => artifactSegment vLib.name != artifactSegment l.name) ++
            p.filterMap fabricConvertLib) := by
    intro v p hv hp
    rw [List.pairwise_append]
    refine ⟨hv.filter _, ?_, ?_⟩
    · refine List.Pairwise.filterMap fabricConvertLib ?_ hp
      intro a a' hR b hb b' hb'
      rw [fabricConvertLib_name hb, fabricConvertLib_name hb']
      exact hR
    · intro a ha b hb
      have hall := (List.mem_filter.1 ha).2
      obtain ⟨q, hq, hqb⟩ := List.mem_filterMap.1 hb
      have := List.all_eq_true.1 hall q hq
      rw [bne_iff_ne] at this
      rw [fabricConvertLib_name hqb]
      exact fun hcontra => this hcontra.symm
  refine ⟨hremove, hremove, ?_, hpair, hpair, ?_⟩
  · intro lp v vers inst lib _ hex hmem
    obtain ⟨q, hq, hseg⟩ := hex
    rcases List.mem_append.1 hmem with h | h
    · have hall := (List.mem_filter.1 h).2
      have := List.all_eq_true.1 hall q hq
      rw [bne_iff_ne] at this
      exact absurd hseg this
    · exact h
  · intro lp v vers inst hv hp hdisj
    have hvers := (List.pairwise_append.1 hp).1
    have hinst := (List.pairwise_append.1 hp).2.1
    have hcrossP := (List.pairwise_append.1 hp).2.2
    unfold distinctSegsV neoforgeMergeLibraries neoConvertedLibraries
    rw [List.pairwise_append]
    refine ⟨hv.filter _, ?_, ?_⟩
    · rw [List.pairwise_append]
      refine ⟨neoAux_pairwise lp false vers [] hvers,
        neoAux_pairwise lp true inst _ hinst, ?_⟩
      intro a ha b hb
      obtain ⟨qa, hqa, hna⟩ := neoAux_mem_names lp false vers [] a ha
      obtain ⟨qb, hqb, hnb⟩ := neoAux_mem_names lp true inst _ b hb
      rw [hna, hnb]
      exact hcrossP qa hqa qb hqb
    · intro a ha b hb
      have hall := (List.mem_filter.1 ha).2
      have hav := (List.mem_filter.1 ha).1
      rcases List.mem_append.1 hb with hbv | hbi
      · obtain ⟨q, hq, hnb⟩ := neoAux_mem_names lp false vers [] b hbv
        have := List.all_eq_true.1 hall q hq
        rw [bne_iff_ne] at this
        rw [hnb]
        exact fun hcontra => this hcontra.symm
      · obtain ⟨q, hq, hnb⟩ := neoAux_mem_names lp true inst _ b hbi
        rw [hnb]
        exact fun hcontra => (hdisj a hav q hq) hcontra.symm

/-- Witness for `loader_merge_dedup`: instantiates the precedence conjunct at
a vanilla list holding `cexConvertedLib` (artifact name `x`, shared with the
profile entry `g:x:1`) and the uniqueness conjunct at singleton lists, with
every hypothesis discharged by evaluation. -/
theorem loader_merge_dedup_witness :
    cexConvertedLib ∈ [cexProfileLib1].filterMap fabricConvertLib
    ∧ distinctSegsV (fabricMergeLibraries
        [{ downloads := none, name := "a.b:y:1", skip_args := false }] [cexProfileLib1]) :=
  ⟨loader_merge_dedup.1 [cexConvertedLib] [cexProfileLib1] cexConvertedLib (by decide)
      ⟨cexProfileLib1, by decide, by decide⟩ (by decide),
    loader_merge_dedup.2.2.2.1
      [{ downloads := none, name := "a.b:y:1", skip_args := false }] [cexProfileLib1]
      (by simp [distinctSegsV]) (by simp [distinctSegsC])⟩

/-- Helper: a string's `isEmpty` flag is false exactly when the string is
non-empty. -/
theorem string_isEmpty_false {s : String} : (s.isEmpty = false) ↔ s ≠ "" := by
  rw [Bool.eq_false_iff, Ne, Ne]
  exact not_congr (String.isEmpty_iff s)

/-- C2 counterexample: a descriptor whose source URL is empty is never placed
in the download set, even when its file is absent on disk — refuting the
claimed "absent implies broken" direction for such a descriptor. -/
theorem reconcile_counterexample :
    cexAbsentDisk.pathExists cexEmptyUrlFile.path = false
    ∧ is_broken cexAbsentDisk cexEmptyUrlFile = false
    ∧ broken_ones cexAbsentDisk [cexEmptyUrlFile] = [] :=
  ⟨rfl, rfl, rfl⟩

/-- C2 (amended): for every descriptor with a NON-EMPTY source URL, the
reconciler classifies it broken — its (url, path, type) triple enters the
download set — iff the file is absent, or the expected digest is non-empty
and the digest computation succeeds with a different value; in particular a
present file with an empty expected digest is never broken, and a failed
digest computation also classifies the file as not broken. -/
theorem reconcile_broken_iff (disk : DiskState) (file : DownloadFile)
    (hurl : file.url ≠ "") :
    (is_broken disk file = true ↔
      (disk.pathExists file.path = false
        ∨ (file.sha1 ≠ "" ∧
            ∃ digest, disk.calculate_sha1 file.path = some digest ∧ digest ≠ file.sha1)))
    ∧ broken_ones disk [file]
        = if is_broken disk file then [(file.url, file.path, file.type)] else [] := by
  constructor
  · have hu : (!file.url.isEmpty) = true := by
      cases h : file.url.isEmpty
      · rfl
      · exact absurd (String.isEmpty_iff file.url |>.1 (by rw [h])) hurl
    unfold is_broken
    rw [hu, Bool.true_and]
    cases hex : disk.pathExists file.path
    · simp
    · cases hsha : disk.calculate_sha1 file.path with
      | none => simp
      | some digest => simp [string_isEmpty_false, bne_iff_ne, Bool.not_eq_true']
  · cases h : is_broken disk file <;> simp [broken_ones, h]

/-- Witness for `reconcile_broken_iff`: a descriptor with URL `http://u`
absent from an empty disk is classified broken. -/
theorem reconcile_broken_iff_witness :
    is_broken cexAbsentDisk cexUrlFile = true :=
  (reconcile_broken_iff cexAbsentDisk cexUrlFile (by decide)).1.2 (Or.inl rfl)

/-- Helper: when the processor loop aborts with an error, the abort happened
at some position j inside the list: every invocation is at or before j, the
steps from j on are untouched, and the error is either the `Fail` wrapping
the stderr of the program that exited non-zero at j, or the error of j's
main-class resolution (whose program was then never invoked). -/
theorem runSteps_error_char (env : ProcEnv) (procs : List Processor) :
    ∀ (i : Nat) (final : List Processor) (inv : List Nat) (e : Error),
      runSteps env i procs = (final, inv, some e) →
      ∃ j, j < procs.length ∧ (∀ m ∈ inv, m ≤ i + j) ∧ final.drop j = procs.drop j ∧
        ((∃ stderr, env.exec (i + j) = StepOutcome.exitFailure stderr ∧
            e = Error.Fail ("Processor failed: " ++ stderr) ∧ (i + j) ∈ inv)
          ∨ (env.mainClass (i + j) = Except.error e ∧ (i + j) ∉ inv)) := by
  induction procs with
  | nil => intro i final inv e h; simp [runSteps] at h
  | cons p rest ih =>
    intro i final inv e h
    by_cases hside : sideSkip p
    · simp only [runSteps, if_pos hside] at h
      rcases hrec : runSteps env (i + 1) rest with ⟨f1, v1, e1⟩
      rw [hrec] at h
      obtain ⟨hf, hv, he⟩ : p :: f1 = final ∧ v1 = inv ∧ e1 = some e := by
        simpa using h
      subst hf; subst hv; subst he
      obtain ⟨j, hj, hbound, hdrop, hcases⟩ := ih (i + 1) f1 v1 e hrec
      refine ⟨j + 1, Nat.succ_lt_succ hj, ?_, ?_, ?_⟩
      · intro m hm
        have := hbound m hm
        omega
      · rw [List.drop_succ_cons, List.drop_succ_cons, hdrop]
      · rw [show i + (j + 1) = i + 1 + j by omega]
        exact hcases
    · by_cases hsucc : p.success
      · simp only [runSteps, if_neg hside, if_pos hsucc] at h
        rcases hrec : runSteps env (i + 1) rest with ⟨f1, v1, e1⟩
        rw [hrec] at h
        obtain ⟨hf, hv, he⟩ : p :: f1 = final ∧ v1 = inv ∧ e1 = some e := by
          simpa using h
        subst hf; subst hv; subst he
        obtain ⟨j, hj, hbound, hdrop, hcases⟩ := ih (i + 1) f1 v1 e hrec
        refine ⟨j + 1, Nat.succ_lt_succ hj, ?_, ?_, ?_⟩
        · intro m hm
          have := hbound m hm
          omega
        · rw [List.drop_succ_cons, List.drop_succ_cons, hdrop]
        · rw [show i + (j + 1) = i + 1 + j by omega]
          exact hcases
      · simp only [runSteps, if_neg hside, if_neg hsucc] at h
        cases hmc : env.mainClass i with
        | error e0 =>
          rw [hmc] at h
          obtain ⟨hf, hv, he⟩ : p :: rest = final ∧ ([] : List Nat) = inv ∧ e0 = e := by
            simpa using h
          subst hf; subst hv; subst he
          refine ⟨0, Nat.succ_pos _, ?_, rfl, ?_⟩
          · intro m hm; exact absurd hm (List.not_mem_nil m)
          · exact Or.inr ⟨by rw [Nat.add_zero, hmc], List.not_mem_nil (i + 0)⟩
        | ok mc =>
          rw [hmc] at h
          cases hex : env.exec i with
          | exitSuccess =>
            rw [hex] at h
            rcases hrec : runSteps env (i + 1) rest with ⟨f1, v1, e1⟩
            rw [hrec] at h
            obtain ⟨hf, hv, he⟩ :
                { p with success := true } :: f1 = final ∧ i :: v1 = inv ∧ e1 = some e := by
              simpa using h
            subst hf; subst hv; subst he
            obtain ⟨j, hj, hbound, hdrop, hcases⟩ := ih (i + 1) f1 v1 e hrec
            refine ⟨j + 1, Nat.succ_lt_succ hj, ?_, ?_, ?_⟩
            · intro m hm
              rcases List.mem_cons.1 hm with rfl | hm1
              · omega
              · have := hbound m hm1
                omega
            · rw [List.drop_succ_cons, List.drop_succ_cons, hdrop]
            · rw [show i + (j + 1) = i + 1 + j by omega]
              rcases hcases with ⟨stderr, hxe, hee, hmem⟩ | ⟨hmcc, hnmem⟩
              · exact Or.inl ⟨stderr, hxe, hee, List.mem_cons_of_mem i hmem⟩
              · refine Or.inr ⟨hmcc, ?_⟩
                intro hcontra
                rcases List.mem_cons.1 hcontra with heq | hmem1
                · omega
                · exact hnmem hmem1
          | exitFailure stderr =>
            rw [hex] at h
            obtain ⟨hf, hv, he⟩ :
                p :: rest = final ∧ [i] = inv
                  ∧ Error.Fail ("Processor failed: " ++ stderr) = e := by
              simpa using h
            subst hf; subst hv; subst he
            refine ⟨0, Nat.succ_pos _, ?_, rfl, ?_⟩
            · intro m hm
              rcases List.mem_cons.1 hm with rfl | hm1
              · omega
              · exact absurd hm1 (List.not_mem_nil m)
            · exact Or.inl ⟨stderr, by rw [Nat.add_zero]; exact hex, rfl,
                by rw [Nat.add_zero]; exact List.mem_cons_self i []⟩

/-- C3 counterexample: with two pending steps where step 0 exits zero and
step 1 exits non-zero, the run fails with the `Fail` error — but the
persisted descriptor is `none`: the version-JSON write at
src/minecraft/install.rs:509 is never reached on the failure path, so step
0's completion flag (set only in memory, first conjunct) is lost and a retry
restarts. -/
theorem processor_failure_counterexample :
    (runSteps cexProcEnv 0 [cexStep, cexStep]).1
        = [{ cexStep with success := true }, cexStep]
    ∧ execute_processors_if_exists cexProcEnv cexMeta
        = (Except.error (Error.Fail ("Processor failed: " ++ "boom")), none, [0, 1]) :=
  ⟨rfl, rfl⟩

/-- C3 (amended): when a step's external program exits non-zero, the run
fails with a `Fail` error wrapping that step's captured stderr and no
subsequent step is executed (first and second conjuncts: every invocation is
at or before the aborting position and later steps are untouched), and the
whole call returns that error WITHOUT persisting the descriptor — the
version JSON is written only after the loop completes, so completion flags
of steps that succeeded in this run are not saved and a retry re-runs
them. -/
theorem processor_failure_spec :
    (∀ (env : ProcEnv) (i : Nat) (p : Processor) (rest : List Processor)
        (mc stderr : String),
      sideSkip p = false → p.success = false → env.mainClass i = Except.ok mc →
      env.exec i = StepOutcome.exitFailure stderr →
      runSteps env i (p :: rest)
        = (p :: rest, [i], some (Error.Fail ("Processor failed: " ++ stderr))))
    ∧ (∀ (env : ProcEnv) (procs : List Processor) (i : Nat) (final : List Processor)
        (inv : List Nat) (e : Error),
      runSteps env i procs = (final, inv, some e) →
      ∃ j, j < procs.length ∧ (∀ m ∈ inv, m ≤ i + j) ∧ final.drop j = procs.drop j ∧
        ((∃ stderr, env.exec (i + j) = StepOutcome.exitFailure stderr ∧
            e = Error.Fail ("Processor failed: " ++ stderr) ∧ (i + j) ∈ inv)
          ∨ (env.mainClass (i + j) = Except.error e ∧ (i + j) ∉ inv)))
    ∧ (∀ (env : ProcEnv) (meta : MetaProcessors) (procs final : List Processor)
        (inv : List Nat) (e : Error),
      meta.processors = some procs → meta.hasData = true →
      runSteps env 0 procs = (final, inv, some e) →
      execute_processors_if_exists env meta = (Except.error e, none, inv)) := by
  refine ⟨?_, fun env procs => runSteps_error_char env procs, ?_⟩
  · intro env i p rest mc stderr hside hsucc hmc hex
    rw [runSteps, if_neg (by rw [hside]; exact Bool.false_ne_true),
      if_neg (by rw [hsucc]; exact Bool.false_ne_true), hmc, hex]
  · intro env meta procs final inv e hprocs hdata hrun
    unfold execute_processors_if_exists
    rw [hprocs]
    simp only [hdata, if_pos, hrun]

/-- Witness for `processor_failure_spec`: one pending client step whose
program exits non-zero with stderr `werr` yields the `Fail` error, one
invocation and an unchanged list. -/
theorem processor_failure_spec_witness :
    runSteps cexProcEnvW 0 [cexStep]
      = ([cexStep], [0], some (Error.Fail ("Processor failed: " ++ "werr"))) :=
  processor_failure_spec.1 cexProcEnvW 0 cexStep [] "Main" "werr" rfl rfl rfl rfl

/-- Helper: every invocation the processor loop records is at or after the
starting position. -/
theorem runSteps_inv_lower (env : ProcEnv) (procs : List Processor) :
    ∀ (i m : Nat), m ∈ (runSteps env i procs).2.1 → i ≤ m := by
  induction procs with
  | nil => intro i m h; simp [runSteps] at h
  | cons p rest ih =>
    intro i m h
    by_cases hside : sideSkip p
    · simp only [runSteps, if_pos hside] at h
      exact Nat.le_of_succ_le (ih (i + 1) m h)
    · by_cases hsucc : p.success
      · simp only [runSteps, if_neg hside, if_pos hsucc] at h
        exact Nat.le_of_succ_le (ih (i + 1) m h)
      · simp only [runSteps, if_neg hside, if_neg hsucc] at h
        cases hmc : env.mainClass i with
        | error e0 => rw [hmc] at h; simp at h
        | ok mc =>
          rw [hmc] at h
          cases hex : env.exec i with
          | exitSuccess =>
            rw [hex] at h
            simp only [List.mem_cons] at h
            rcases h with rfl | h
            · exact Nat.le_refl m
            · exact Nat.le_of_succ_le (ih (i + 1) m h)
          | exitFailure stderr =>
            rw [hex] at h
            simp only [List.mem_cons, List.not_mem_nil, or_false] at h
            omega

/-- Helper: when the processor loop completes without error, every step of
the final list that is not side-skipped carries a true completion flag. -/
theorem runSteps_ok_success (env : ProcEnv) (procs : List Processor) :
    ∀ (i : Nat), (runSteps env i procs).2.2 = none →
      ∀ q ∈ (runSteps env i procs).1, sideSkip q = false → q.success = true := by
  induction procs with
  | nil => intro i _ q hq; simp [runSteps] at hq
  | cons p rest ih =>
    intro i herr q hq hqside
    by_cases hside : sideSkip p
    · simp only [runSteps, if_pos hside] at herr hq
      rcases List.mem_cons.1 hq with rfl | hq1
      · exact absurd hside (by rw [hqside]; exact Bool.false_ne_true)
      · exact ih (i + 1) herr q hq1 hqside
    · by_cases hsucc : p.success
      · simp only [runSteps, if_neg hside, if_pos hsucc] at herr hq
        rcases List.mem_cons.1 hq with rfl | hq1
        · exact hsucc
        · exact ih (i + 1) herr q hq1 hqside
      · simp only [runSteps, if_neg hside, if_neg hsucc] at herr hq
        cases hmc : env.mainClass i with
        | error e0 => rw [hmc] at herr; simp at herr
        | ok mc =>
          rw [hmc] at herr hq
          cases hex : env.exec i with
          | exitSuccess =>
            rw [hex] at herr hq
            rcases List.mem_cons.1 hq with rfl | hq1
            · rfl
            · exact ih (i + 1) herr q hq1 hqside
          | exitFailure stderr =>
            rw [hex] at herr
            simp at herr

/-- Helper: a processor list whose every step is side-skipped or already
complete runs with no invocation, no error and no change. -/
theorem runSteps_all_skipped (env : ProcEnv) (procs : List Processor) :
    ∀ (i : Nat), (∀ q ∈ procs, sideSkip q = true ∨ q.success = true) →
      runSteps env i procs = (procs, [], none) := by
  induction procs with
  | nil => intro i _; rfl
  | cons p rest ih =>
    intro i hall
    have hrest := ih (i + 1) fun q hq => hall q (List.mem_cons_of_mem p hq)
    rcases hall p (List.mem_cons_self p rest) with hside | hsucc
    · rw [runSteps, if_pos hside, hrest]
    · by_cases hside : sideSkip p
      · rw [runSteps, if_pos hside, hrest]
      · rw [runSteps, if_neg hside, if_pos hsucc, hrest]

/-- C4 counterexample: step 0 succeeds and is marked complete in memory, yet
when step 1 then exits non-zero, nothing at all has been persisted —
refuting "after each step that succeeds the updated descriptor is
immediately persisted". -/
theorem processor_persist_counterexample :
    (runSteps cexProcEnv2 0 [cexStep, cexStep]).1
        = [{ cexStep with success := true }, cexStep]
    ∧ execute_processors_if_exists cexProcEnv2 cexMeta
        = (Except.error (Error.Fail ("Processor failed: " ++ "late-fail")), none, [0, 1]) :=
  ⟨rfl, rfl⟩

/-- C4 (amended): a step whose side restriction excludes "client" or whose
completion flag is true is never invoked and stays unchanged (first
conjunct); each step that succeeds is marked complete in memory (second
conjunct) and the updated descriptor is persisted ONCE after the whole list
completes without error (third conjunct), not immediately per step; a
subsequent run over a descriptor produced by a fully-successful run invokes
no external program and changes nothing (fourth conjunct). -/
theorem processor_resume_spec :
    (∀ (env : ProcEnv) (i : Nat) (p : Processor) (rest : List Processor),
        sideSkip p = true ∨ p.success = true →
        i ∉ (runSteps env i (p :: rest)).2.1
        ∧ (runSteps env i (p :: rest)).1.head? = some p)
    ∧ (∀ (env : ProcEnv) (procs : List Processor) (i : Nat),
        (runSteps env i procs).2.2 = none →
        ∀ q ∈ (runSteps env i procs).1, sideSkip q = false → q.success = true)
    ∧ (∀ (env : ProcEnv) (meta : MetaProcessors) (procs final : List Processor)
        (inv : List Nat),
        meta.processors = some procs → meta.hasData = true →
        runSteps env 0 procs = (final, inv, none) →
        execute_processors_if_exists env meta
          = (Except.ok { meta with processors := some final },
              some { meta with processors := some final }, inv))
    ∧ (∀ (env env2 : ProcEnv) (i : Nat) (procs final : List Processor) (inv : List Nat),
        runSteps env i procs = (final, inv, none) →
        runSteps env2 i final = (final, [], none)) := by
  refine ⟨?_, fun env procs => runSteps_ok_success env procs, ?_, ?_⟩
  · intro env i p rest hskip
    have hbranch : runSteps env i (p :: rest)
        = (p :: (runSteps env (i + 1) rest).1, (runSteps env (i + 1) rest).2.1,
            (runSteps env (i + 1) rest).2.2) := by
      rcases hskip with hside | hsucc
      · rw [runSteps, if_pos hside]
      · by_cases hside : sideSkip p
        · rw [runSteps, if_pos hside]
        · rw [runSteps, if_neg hside, if_pos hsucc]
    rw [hbranch]
    constructor
    · intro hmem
      have := runSteps_inv_lower env rest (i + 1) i hmem
      omega
    · rfl
  · intro env meta procs final inv hprocs hdata hrun
    unfold execute_processors_if_exists
    rw [hprocs]
    simp only [hdata, if_pos, hrun]
  · intro env env2 i procs final inv hrun
    have hcomplete := runSteps_ok_success env procs i (by rw [hrun])
    rw [hrun] at hcomplete
    refine runSteps_all_skipped env2 final i fun q hq => ?_
    by_cases hside : sideSkip q
    · exact Or.inl hside
    · exact Or.inr (hcomplete q hq (Bool.not_eq_true _ ▸ Bool.of_not_eq_true hside))

/-- Witness for `processor_resume_spec`: an already-complete step is not
invoked and stays at the head unchanged, and the loop over the empty list
completes untouched. -/
theorem processor_resume_spec_witness :
    (0 ∉ (runSteps cexProcEnvW 0 [{ cexStep with success := true }]).2.1
      ∧ (runSteps cexProcEnvW 0 [{ cexStep with success := true }]).1.head?
          = some { cexStep with success := true })
    ∧ runSteps cexProcEnvW 0 [] = ([], [], none) :=
  ⟨processor_resume_spec.1 cexProcEnvW 0 { cexStep with success := true } [] (Or.inr rfl),
    processor_resume_spec.2.2.2 cexProcEnvW cexProcEnvW 0 [] [] [] rfl⟩

/-- Helper: the streaming loop aborts with the stalled-connection `Download`
error as soon as an item's arrival gap exceeds the 10-second window,
whatever chunks preceded it. -/
theorem downloadLoop_stall (cl : Option Nat) (ev : ChunkEvent) (rest : List ChunkEvent)
    (hgap : 10 < ev.gapSecs) :
    ∀ (pre : List ChunkEvent) (written : Nat),
      (∀ e ∈ pre, e.gapSecs ≤ 10 ∧ ∃ len, e.chunk = some len) →
      (downloadLoop cl (pre ++ ev :: rest) written).1
        = Except.error (Error.Download "Connection stalled: timeout elapsed") := by
  intro pre
  induction pre with
  | nil =>
    intro written _
    simp only [List.nil_append, downloadLoop, if_pos hgap]
  | cons e pre ih =>
    intro written hall
    obtain ⟨hgap2, len, hchunk⟩ := hall e (List.mem_cons_self e pre)
    have hne : ¬ 10 < e.gapSecs := by omega
    simp only [List.cons_append, downloadLoop, if_neg hne, hchunk]
    exact ih (written + len) fun x hx => hall x (List.mem_cons_of_mem e hx)

/-- C6: a successful-status download whose stream reaches a point where no
chunk arrives within the fixed 10-second inactivity window — after
well-behaved chunks — fails with a `Download` (stalled-connection) error;
the loop is a total function, so it terminates rather than hanging. -/
theorem download_stall_spec :
    ∀ (resp : HttpResponse) (pre : List ChunkEvent) (ev : ChunkEvent)
      (rest : List ChunkEvent),
      resp.statusSuccess = true →
      resp.events = pre ++ ev :: rest →
      (∀ e ∈ pre, e.gapSecs ≤ 10 ∧ ∃ len, e.chunk = some len) →
      10 < ev.gapSecs →
      ∃ msg, (download resp).1 = Except.error (Error.Download msg) := by
  intro resp pre ev rest hstatus hevents hpre hgap
  refine ⟨"Connection stalled: timeout elapsed", ?_⟩
  unfold download
  rw [if_pos hstatus, hevents]
  exact downloadLoop_stall resp.contentLength ev rest hgap pre 0 hpre

/-- Witness for `download_stall_spec`: a response whose single body item
arrives after an 11-second gap fails with a `Download` error. -/
theorem download_stall_spec_witness :
    ∃ msg, (download cexStallResp).1 = Except.error (Error.Download msg) :=
  download_stall_spec cexStallResp [] ⟨11, some 3⟩ [] rfl rfl
    (fun e he => absurd he (List.not_mem_nil e)) (by decide)

/-- Helper: over a well-behaved stream (every gap within the window, no
stream error) the loop returns the Content-Length value (0 when absent) and
writes exactly the sum of the chunk lengths. -/
theorem downloadLoop_clean (cl : Option Nat) :
    ∀ (events : List ChunkEvent) (written : Nat),
      (∀ e ∈ events, e.gapSecs ≤ 10 ∧ ∃ len, e.chunk = some len) →
      downloadLoop cl events written
        = (Except.ok (cl.getD 0), written + (events.map fun e => e.chunk.getD 0).sum) := by
  intro events
  induction events with
  | nil => intro written _; simp [downloadLoop]
  | cons e rest ih =>
    intro written hall
    obtain ⟨hgap, len, hchunk⟩ := hall e (List.mem_cons_self e rest)
    have hne : ¬ 10 < e.gapSecs := by omega
    simp only [downloadLoop, if_neg hne, hchunk]
    rw [ih (written + len) fun x hx => hall x (List.mem_cons_of_mem e hx)]
    simp [hchunk, Nat.add_assoc]

/-- C8 counterexample: a success response with no Content-Length header and
one 5-byte chunk returns 0, while 5 bytes were written to the destination —
the returned value is the header, not `bytes_written`. -/
theorem download_return_counterexample :
    download cexNoLengthResp = (Except.ok 0, 5) ∧ (5 : Nat) ≠ 0 :=
  ⟨rfl, by decide⟩

/-- C8 (amended): `download` fails with a `Download` error carrying the
status text whenever the response status is not successful, and on a
well-behaved stream it returns the Content-Length header value (0 when the
header is absent) — the returned number equals the bytes written only when
that header matches the streamed body. -/
theorem download_return_spec :
    (∀ resp : HttpResponse, resp.statusSuccess = false →
        download resp = (Except.error (Error.Download resp.statusText), 0))
    ∧ (∀ resp : HttpResponse, resp.statusSuccess = true →
        (∀ e ∈ resp.events, e.gapSecs ≤ 10 ∧ ∃ len, e.chunk = some len) →
        download resp
          = (Except.ok (resp.contentLength.getD 0),
              (resp.events.map fun e => e.chunk.getD 0).sum)) := by
  constructor
  · intro resp h
    unfold download
    rw [if_neg (by rw [h]; exact Bool.false_ne_true)]
  · intro resp h hall
    unfold download
    rw [if_pos h, downloadLoop_clean resp.contentLength resp.events 0 hall, Nat.zero_add]

/-- Witness for `download_return_spec`: a 404 response fails with the status
text, and the header-less response of the counterexample returns the header
default 0 having written 5 bytes. -/
theorem download_return_spec_witness :
    download cexFailResp = (Except.error (Error.Download "404 Not Found"), 0)
    ∧ download cexNoLengthResp = (Except.ok 0, 5) :=
  ⟨download_return_spec.1 cexFailResp rfl,
    by
      have h := download_return_spec.2 cexNoLengthResp rfl ?_
      · simpa using h
      · intro e he
        simp only [cexNoLengthResp, List.mem_singleton] at he
        subst he
        exact ⟨by decide, 5, rfl⟩⟩

/-- C7: each batch entry is attempted at most 3 times, every inter-attempt
sleep is exactly 5 seconds and there is one fewer sleep than attempts (first
conjunct); an entry's retry fails exactly when all three attempts fail, with
the third attempt's error (second conjunct); and the batch returns the error
of the first entry whose retries are exhausted, whatever entries follow it —
fail-fast, no best-effort pass (third conjunct). -/
theorem download_retry_spec :
    (∀ f : Nat → Except Error Nat,
        (retry f 3 5).2.1 ≤ 3
        ∧ (∀ d ∈ (retry f 3 5).2.2, d = 5)
        ∧ (retry f 3 5).2.2.length = (retry f 3 5).2.1 - 1)
    ∧ (∀ (f : Nat → Except Error Nat) (e : Error),
        (retry f 3 5).1 = Except.error e ↔
          ∃ e0 e1, f 0 = Except.error e0 ∧ f 1 = Except.error e1 ∧ f 2 = Except.error e)
    ∧ (∀ (outcome : Nat → Nat → Except Error Nat) (pre : List Nat) (i : Nat)
        (rest : List Nat) (e : Error),
        (∀ j ∈ pre, ∃ v, (retry (outcome j) 3 5).1 = Except.ok v) →
        (retry (outcome i) 3 5).1 = Except.error e →
        downloadBatch outcome (pre ++ i :: rest) = Except.error e) := by
  have hunroll : ∀ f : Nat → Except Error Nat,
      retry f 3 5 =
        match f 0 with
        | Except.ok v => (Except.ok v, 1, [])
        | Except.error _ =>
          match f 1 with
          | Except.ok v => (Except.ok v, 2, [5])
          | Except.error _ => (f 2, 3, [5, 5]) := by
    intro f
    cases h0 : f 0 with
    | ok v => simp [retry, retryGo, h0]
    | error e0 =>
      cases h1 : f 1 with
      | ok v => simp [retry, retryGo, h0, h1]
      | error e1 => simp [retry, retryGo, h0, h1]
  refine ⟨?_, ?_, ?_⟩
  · intro f
    cases h0 : f 0 with
    | ok v =>
      simp only [hunroll f, h0]
      exact ⟨by omega, by simp, rfl⟩
    | error e0 =>
      cases h1 : f 1 with
      | ok v =>
        simp only [hunroll f, h0, h1]
        exact ⟨by omega, by simp, rfl⟩
      | error e1 =>
        simp only [hunroll f, h0, h1]
        exact ⟨Nat.le_refl 3, by simp, rfl⟩
  · intro f e
    rw [hunroll f]
    cases h0 : f 0 with
    | ok v => simp [h0]
    | error e0 =>
      cases h1 : f 1 with
      | ok v => simp [h0, h1]
      | error e1 => simp [h0, h1]
  · intro outcome pre
    induction pre with
    | nil =>
      intro i rest e _ herr
      cases hi : (retry (outcome i) 3 5).1 with
      | ok v => rw [hi] at herr; exact absurd herr (by simp)
      | error e2 =>
        rw [hi] at herr
        simp only [List.nil_append, downloadBatch, hi]
        exact congrArg Except.error (Except.error.inj herr)
    | cons j pre ih =>
      intro i rest e hok herr
      obtain ⟨v, hv⟩ := hok j (List.mem_cons_self j pre)
      simp only [List.cons_append, downloadBatch, hv]
      exact ih i rest e (fun x hx => hok x (List.mem_cons_of_mem j hx)) herr

/-- Witness for `download_retry_spec`: in a three-entry batch where entry 0
succeeds and entry 1 fails every attempt, the batch returns entry 1's error
without touching entry 2. -/
theorem download_retry_spec_witness :
    downloadBatch cexOutcome ([0] ++ 1 :: [2]) = Except.error (Error.Download "dead") :=
  download_retry_spec.2.2 cexOutcome [0] 1 [2] (Error.Download "dead")
    (by
      intro j hj
      simp only [List.mem_singleton] at hj
      subst hj
      exact ⟨7, rfl⟩)
    rfl

/-- C9: in the batch scheduler of `download_multiple` (tasks run through
`buffered(10)`), every state reachable from a batch of n queued entries has
at most 10 entries in flight; excess entries stay pending behind the
bound. -/
theorem download_concurrency_bound :
    ∀ (n : Nat) (s : BatchState), BatchReachable (initBatch n) s → s.inflight ≤ 10 := by
  intro n s h
  induction h with
  | refl => exact Nat.zero_le 10
  | step hreach hstep ih =>
    cases hstep with
    | spawn hp hf => exact hf
    | complete hf => exact Nat.le_trans (Nat.sub_le _ 1) ih

/-- Witness for `download_concurrency_bound`: the initial state of a batch of
50 queued downloads is reachable and respects the bound. -/
theorem download_concurrency_bound_witness :
    (initBatch 50).inflight ≤ 10 :=
  download_concurrency_bound 50 (initBatch 50) (BatchReachable.refl (initBatch 50))

/-- C10: the processor argument resolver slices `arg[1..len-1]` before any
shape check, so every token shorter than 2 characters — the empty token
included — makes it panic (modelled as `none`) instead of passing the token
through literally or returning an error value (first conjunct); a literal
token of length at least 2 that starts with neither a brace nor a bracket is
passed through unchanged (second conjunct). -/
theorem resolveArg_short_panics :
    (∀ (librariesPath : String) (data : String → Option Data) (arg : String),
        arg.data.length < 2 → resolveArg librariesPath data arg = none)
    ∧ (∀ (librariesPath : String) (data : String → Option Data) (arg : String),
        2 ≤ arg.data.length →
        startsWithChar '\x7b' arg = false → startsWithChar '[' arg = false →
        resolveArg librariesPath data arg = some arg) := by
  constructor
  · intro lp data arg h
    unfold resolveArg
    rw [if_pos h]
  · intro lp data arg hlen hbrace hbracket
    unfold resolveArg
    rw [if_neg (by omega), if_neg (by rw [hbrace]; exact Bool.false_ne_true),
      if_neg (by rw [hbracket]; exact Bool.false_ne_true)]

/-- Witness for `resolveArg_short_panics`: the empty token panics, the
literal token `xy` passes through. -/
theorem resolveArg_short_panics_witness :
    resolveArg "libs" (fun _ => none) "" = none
    ∧ resolveArg "libs" (fun _ => none) "xy" = some "xy" :=
  ⟨resolveArg_short_panics.1 "libs" (fun _ => none) "" (by decide),
    resolveArg_short_panics.2 "libs" (fun _ => none) "xy" (by decide) rfl rfl⟩

end Lyceris
